import Mathlib

/-!
Verification development for the cyber_threat_analyzer repository.

The definitions below are a shallow embedding of `src/app/parser.py`,
`src/app/enrichment.py` and `src/app/llm.py`.  Python strings are modelled
as `String` / `List Char`; the concrete regular expressions of the source
are implemented as executable matchers that follow Python's leftmost,
greedy, backtracking semantics for exactly those patterns; Python `set`
accumulation is modelled as insertion-ordered duplicate-free lists (claims
about the sets are stated via membership, which is independent of
iteration order); `random.randint` is modelled as an injected score
stream; the `subprocess`/exception boundary of `parse_pcap_with_tshark`
is modelled as a sum type of the outcomes the code distinguishes.
-/

namespace CTA

/-! ## Character classes (ASCII, as used by the patterns in the source) -/

/-- Python regex `\d` for the ASCII inputs handled here. -/
def isDigitC (c : Char) : Bool := c.isDigit

/-- Python regex `[a-zA-Z]`. -/
def isAlphaC (c : Char) : Bool := ('a' ≤ c && c ≤ 'z') || ('A' ≤ c && c ≤ 'Z')

/-- Python regex `[a-zA-Z0-9]`. -/
def isAlnumC (c : Char) : Bool := isAlphaC c || isDigitC c

/-- Python regex word character `\w` (ASCII): letters, digits, underscore. -/
def isWordC (c : Char) : Bool := isAlnumC c || c = '_'

/-- Python regex `\s` (ASCII): space, tab, newline, carriage return,
vertical tab, form feed. -/
def isSpaceC (c : Char) : Bool :=
  c = ' ' || c = '\t' || c = '\n' || c = '\r' || c = Char.ofNat 11 || c = Char.ofNat 12

/-- `\b` at the start of a match whose first character is a word character:
it holds iff the preceding character (if any) is not a word character. -/
def startBoundary (prev : Option Char) (c : Char) : Bool :=
  isWordC c && (match prev with
    | none => true
    | some p => !isWordC p)

/-- `\b` at the end of a match whose last character is a word character:
it holds iff the following character (if any) is not a word character. -/
def endBoundary : List Char → Bool
  | [] => true
  | c :: _ => !isWordC c

/-! ## The IP pattern `\b(?:\d{1,3}\.){3}\d{1,3}\b` -/

/-- One greedy attempt of `\d{1,3}\.`: try 3, then 2, then 1 digits,
each followed by a literal dot.  Returns the consumed length (digits
plus dot). -/
def digitsDot (s : List Char) : Option Nat :=
  (tryLen 3).orElse fun _ => (tryLen 2).orElse fun _ => tryLen 1
where
  tryLen (L : Nat) : Option Nat :=
    if (s.take L).length = L && (s.take L).all isDigitC
        && (s.drop L).head? = some '.' then some (L + 1) else none

/-- Greedy attempt of the final `\d{1,3}\b`: try 3, then 2, then 1 digits,
each followed by a word boundary. -/
def digitsEnd (s : List Char) : Option Nat :=
  (tryLen 3).orElse fun _ => (tryLen 2).orElse fun _ => tryLen 1
where
  tryLen (L : Nat) : Option Nat :=
    if (s.take L).length = L && (s.take L).all isDigitC
        && endBoundary (s.drop L) then some L else none

/-- Match of `\b(?:\d{1,3}\.){3}\d{1,3}\b` anchored at the head of `s`
(`prev` is the character before `s`, used for the word boundary).
Returns the length of the match. -/
def ipMatchAt (prev : Option Char) (s : List Char) : Option Nat :=
  match s with
  | [] => none
  | c :: _ =>
    if startBoundary prev c then
      match digitsDot s with
      | none => none
      | some a =>
        match digitsDot (s.drop a) with
        | none => none
        | some b =>
          match digitsDot (s.drop (a + b)) with
          | none => none
          | some c2 =>
            match digitsEnd (s.drop (a + b + c2)) with
            | none => none
            | some d => some (a + b + c2 + d)
    else none

/-! ## The URL pattern `https?://[^\s\"']+` -/

/-- Characters allowed in the URL body: anything but whitespace, double
quote (34) and single quote (39). -/
def urlBodyChar (c : Char) : Bool :=
  !(isSpaceC c || c = Char.ofNat 34 || c = Char.ofNat 39)

/-- Match of `://[^\s\"']+` anchored at the head of `t`. -/
def urlTail (t : List Char) : Option Nat :=
  match t with
  | ':' :: '/' :: '/' :: rest =>
    let body := rest.takeWhile urlBodyChar
    if body.length = 0 then none else some (3 + body.length)
  | _ => none

/-- Match of `https?://[^\s\"']+` anchored at the head of `s`.  The greedy
`s?` prefers the `https` variant; if `://` does not follow the `s`, the
plain `http` variant is retried (it then necessarily fails on the `s`). -/
def urlMatchAt (_prev : Option Char) (s : List Char) : Option Nat :=
  match s with
  | 'h' :: 't' :: 't' :: 'p' :: rest =>
    (match rest with
     | 's' :: rest2 => (urlTail rest2).map (· + 5)
     | _ => none).orElse fun _ => (urlTail rest).map (· + 4)
  | _ => none

/-! ## The domain pattern
`\b(?:[a-zA-Z0-9](?:[a-zA-Z0-9-]{0,61}[a-zA-Z0-9])?\.)+[a-zA-Z]{2,6}\b` -/

def alnumHyphen (c : Char) : Bool := isAlnumC c || c = '-'

/-- Candidate lengths, in backtracking priority order, for one label
`[a-zA-Z0-9](?:[a-zA-Z0-9-]{0,61}[a-zA-Z0-9])?` anchored at the head of
`s`.  The optional group is preferred (greedy `?`), and inside it the
`{0,61}` part is greedy, so inner lengths are tried from largest to 0;
the group-absent alternative (length 1) comes last. -/
def labelCandidates (s : List Char) : List Nat :=
  match s with
  | [] => []
  | c :: rest =>
    if isAlnumC c then
      let r := (rest.takeWhile alnumHyphen).length
      let maxJ := min 61 r
      let withOpt := ((List.range (maxJ + 1)).reverse).filterMap fun j =>
        match (rest.drop j).head? with
        | some d => if isAlnumC d then some (j + 2) else none
        | none => none
      withOpt ++ [1]
    else []

/-- Candidate lengths, in priority order, for one repetition
`label\.` anchored at the head of `s` (label length plus the dot). -/
def repCandidates (s : List Char) : List Nat :=
  (labelCandidates s).filterMap fun L =>
    match (s.drop L).head? with
    | some d => if d = '.' then some (L + 1) else none
    | none => none

/-- Greedy attempt of the trailing `[a-zA-Z]{2,6}\b`: lengths 6 down to 2,
each requiring only letters and then a word boundary. -/
def tldEnd (s : List Char) : Option Nat :=
  first [6, 5, 4, 3, 2]
where
  tryLen (L : Nat) : Option Nat :=
    if (s.take L).length = L && (s.take L).all isAlphaC
        && endBoundary (s.drop L) then some L else none
  first : List Nat → Option Nat
    | [] => none
    | L :: rest => (tryLen L).orElse fun _ => first rest

/-- Try the candidate repetition lengths in priority order: for each,
first try to consume further repetitions via `rec` (the loop one fuel
level down), then fall back to the TLD. -/
def tryCands (s : List Char) (rec : List Char → Option Nat) : List Nat → Option Nat
  | [] => none
  | L :: rest =>
    match (match rec (s.drop L) with
           | some m => some (L + m)
           | none => (tldEnd (s.drop L)).map (L + ·)) with
    | some r => some r
    | none => tryCands s rec rest

/-- Backtracking loop for `(label\.)+ [a-zA-Z]{2,6}\b`.  `fuel` bounds the
recursion (each repetition consumes at least two characters). -/
def domainLoop : Nat → List Char → Option Nat
  | 0, _ => none
  | fuel + 1, s => tryCands s (domainLoop fuel) (repCandidates s)

/-- Match of the domain pattern anchored at the head of `s`. -/
def domainMatchAt (prev : Option Char) (s : List Char) : Option Nat :=
  match s with
  | [] => none
  | c :: _ =>
    if startBoundary prev c then domainLoop (s.length + 1) s else none

/-! ## `re.findall`: leftmost, non-overlapping scan -/

/-- Scanner for `re.findall`: at each position try the matcher; on a match
of length `n` record the matched slice and resume after it, otherwise
advance one character.  `prev` is the character preceding the current
position (for word boundaries).  None of the patterns above can match the
empty string, so the `n = 0` guard (skip) is unreachable and only makes
the recursion evidently well behaved. -/
def scanAux (m : Option Char → List Char → Option Nat) :
    Nat → Option Char → List Char → List (List Char)
  | 0, _, _ => []
  | _ + 1, _, [] => []
  | fuel + 1, prev, c :: rest =>
    match m prev (c :: rest) with
    | none => scanAux m fuel (some c) rest
    | some n =>
      if n = 0 then scanAux m fuel (some c) rest
      else ((c :: rest).take n) ::
        scanAux m fuel ((c :: rest).take n).getLast? ((c :: rest).drop n)

/-- `re.findall(pattern, content)` for one of the matchers above. -/
def findall (m : Option Char → List Char → Option Nat)
    (content : List Char) : List (List Char) :=
  scanAux m (content.length + 1) none content

/-! ## `re.match(r"^\d{1,3}\.\d{1,3}\.\d{1,3}\.\d{1,3}$", s)`

Python's `$` matches at the end of the string or just before a final
newline, so the tail after the last digit group must be `[]` or `['\n']`. -/

def quadTail (s : List Char) : Bool :=
  [3, 2, 1].any fun L =>
    (s.take L).length = L && (s.take L).all isDigitC
      && ((s.drop L) = [] || (s.drop L) = ['\n'])

/-- Whether `re.match(r"^\d{1,3}\.\d{1,3}\.\d{1,3}\.\d{1,3}$", s)` succeeds. -/
def dottedQuadPy (s : List Char) : Bool :=
  match digitsDot s with
  | none => false
  | some a =>
    match digitsDot (s.drop a) with
    | none => false
    | some b =>
      match digitsDot (s.drop (a + b)) with
      | none => false
      | some c => quadTail (s.drop (a + b + c))

/-! ## Python `set` accumulation, modelled as ordered duplicate-free lists -/

/-- `set.add`: insertion-ordered model of Python set insertion. -/
def addToSet {α : Type} [DecidableEq α] (s : List α) (x : α) : List α :=
  if x ∈ s then s else s ++ [x]

/-- `set(l)`: deduplicate keeping first occurrences. -/
def dedupKeepFirst {α : Type} [DecidableEq α] (l : List α) : List α :=
  l.foldl addToSet []

/-- Python substring test `needle in hay` on strings-as-char-lists. -/
def isPrefixL : List Char → List Char → Bool
  | [], _ => true
  | _ :: _, [] => false
  | a :: as, b :: bs => a = b && isPrefixL as bs

def isSubstringL (needle hay : List Char) : Bool :=
  isPrefixL needle hay ||
    (match hay with
     | [] => false
     | _ :: t => isSubstringL needle t)

/-! ## Indicator records and `parse_log` -/

/-- One indicator dictionary `{"type": ..., "value": ...}`. -/
structure Indicator where
  type : String
  value : String
deriving DecidableEq

/-- `parse_log` from `src/app/parser.py` (lines 124-149), as a function of
the file content.  The three `re.findall` scans, the per-kind `set`
deduplication, the dotted-quad / dot-containment filter and the
(URL-substring-of-domain) filter are translated one to one. -/
def parse_log (content : List Char) : List Char × List Indicator :=
  let ips := findall ipMatchAt content
  let urls := findall urlMatchAt content
  let domains := findall domainMatchAt content
  let indicators :=
    (dedupKeepFirst ips).map (fun ip => { type := "ip", value := String.mk ip })
    ++ (dedupKeepFirst urls).map (fun url => { type := "url", value := String.mk url })
    ++ ((dedupKeepFirst domains).filter (fun d =>
          !(dottedQuadPy d) && d.any (fun c => c = '.')
            && !(urls.any (fun u => isSubstringL u d)))).map
        (fun d => { type := "domain", value := String.mk d })
  (content, indicators)

/-! ## `classify_score` from `src/app/enrichment.py` -/

/-- The `THREAT_SCORES` table, as the `dict.get(type_, [])` lookup. -/
def THREAT_SCORES (type_ : String) : List (Int × String) :=
  if type_ = "ip" then [(90, "High"), (60, "Medium"), (30, "Low")]
  else if type_ = "domain" then [(85, "High"), (55, "Medium"), (25, "Low")]
  else if type_ = "url" then [(80, "High"), (50, "Medium"), (20, "Low")]
  else []

/-- The threshold loop of `classify_score`. -/
def classifyGo (score : Int) : List (Int × String) → String
  | [] => "Unknown"
  | (t, l) :: rest => if t ≤ score then l else classifyGo score rest

/-- `classify_score(score, type_)` from `src/app/enrichment.py` lines 9-14. -/
def classify_score (score : Int) (type_ : String) : String :=
  classifyGo score (THREAT_SCORES type_)

/-! ## `enrich_indicators` from `src/app/enrichment.py`

`random.randint(10, 100)` is modelled as an injected stream `rand`:
the i-th loop iteration reads `rand i`.  The `randint` contract
(`10 ≤ rand i ≤ 100`) becomes a hypothesis of the theorems. -/

/-- One enriched indicator dictionary. -/
structure Enriched where
  type : String
  indicator : String
  details : String
  score : Int
  level : String
deriving DecidableEq

def enrichGo (rand : Nat → Int) : Nat → List Indicator → List Enriched
  | _, [] => []
  | i, item :: rest =>
    { type := item.type
      indicator := item.value
      details := "Simulated enrichment details for " ++ item.value
      score := rand i
      level := classify_score (rand i) item.type } :: enrichGo rand (i + 1) rest

/-- `enrich_indicators(indicators)` from `src/app/enrichment.py` lines 16-33. -/
def enrich_indicators (rand : Nat → Int) (indicators : List Indicator) : List Enriched :=
  enrichGo rand 0 indicators

/-! ## The pcap path of `src/app/parser.py`

The JSON emitted by tshark is modelled as a list of packets; each layer's
fields are `Option String` (`none` = key absent).  Python string
truthiness (`if src_ip and dst_ip:`) is the `some`-and-nonempty test. -/

structure IpLayer where
  src : Option String
  dst : Option String
deriving DecidableEq

structure DnsLayer where
  qryName : Option String
  dnsA : Option String
deriving DecidableEq

structure HttpLayer where
  host : Option String
  requestUri : Option String
deriving DecidableEq

structure Packet where
  frameTime : Option String
  frameNumber : Option String
  frameProtocols : Option String
  ip : Option IpLayer
  dns : Option DnsLayer
  http : Option HttpLayer
deriving DecidableEq

/-- Python `sep.join(lines)`. -/
def joinStr (sep : String) : List String → String
  | [] => ""
  | x :: xs => xs.foldl (fun acc s => acc ++ sep ++ s) x

/-- The frame context line (parser.py line 70). -/
def frameLine (p : Packet) : String :=
  "Frame " ++ p.frameNumber.getD "" ++ " (" ++ p.frameProtocols.getD ""
    ++ ") at " ++ p.frameTime.getD "No Timestamp"

/-- IP layer handling (parser.py lines 73-79): summary parts added and
addresses accumulated when both `ip.src` and `ip.dst` are truthy. -/
def ipStep (ips : List String) (p : Packet) : List String × List String :=
  match p.ip with
  | none => ([], ips)
  | some il =>
    match il.src, il.dst with
    | some s, some d =>
      if s ≠ "" ∧ d ≠ "" then
        (["IP: " ++ s ++ " -> " ++ d], addToSet (addToSet ips s) d)
      else ([], ips)
    | _, _ => ([], ips)

/-- DNS query handling (parser.py lines 84-87): a truthy query name adds
a summary part and is recorded as a domain. -/
def dnsQueryStep (domains : List String) (dl : DnsLayer) : List String × List String :=
  match dl.qryName with
  | some q => if q ≠ "" then (["DNS Query: " ++ q], addToSet domains q)
              else ([], domains)
  | none => ([], domains)

/-- DNS layer handling (parser.py lines 82-92): the query handling above,
then a *present* `dns.a` key adds an answer line. -/
def dnsStep (domains : List String) (p : Packet) : List String × List String :=
  match p.dns with
  | none => ([], domains)
  | some dl =>
    match dl.dnsA with
    | some a => ((dnsQueryStep domains dl).1 ++ ["DNS Answer: " ++ a],
                 (dnsQueryStep domains dl).2)
    | none => dnsQueryStep domains dl

/-- HTTP host handling (parser.py lines 97-101): a truthy host adds a
summary part and is recorded as a domain. -/
def httpHostStep (domains : List String) (hl : HttpLayer) : List String × List String :=
  match hl.host with
  | some host => if host ≠ "" then
        (["HTTP Host: " ++ host], addToSet domains host)
      else ([], domains)
  | none => ([], domains)

/-- HTTP layer handling (parser.py lines 95-103): the host handling above,
then a truthy request URI adds a summary part. -/
def httpStep (domains : List String) (p : Packet) : List String × List String :=
  match p.http with
  | none => ([], domains)
  | some hl =>
    match hl.requestUri with
    | some u => if u ≠ "" then
          ((httpHostStep domains hl).1 ++ ["HTTP URI: " ++ u],
           (httpHostStep domains hl).2)
        else httpHostStep domains hl
    | none => httpHostStep domains hl

/-- One iteration of the packet loop: the summary line for `p` plus the
updated address/domain sets. -/
def processPacket (ips domains : List String) (p : Packet) :
    String × List String × List String :=
  let ipr := ipStep ips p
  let dnsr := dnsStep domains p
  let httpr := httpStep dnsr.2 p
  (joinStr " | " (frameLine p :: (ipr.1 ++ dnsr.1 ++ httpr.1)), ipr.2, httpr.2)

/-- The packet loop (parser.py lines 60-105). -/
def processPackets : List Packet → List String → List String → List String →
    List String × List String × List String
  | [], lines, ips, domains => (lines, ips, domains)
  | p :: rest, lines, ips, domains =>
    let r := processPacket ips domains p
    processPackets rest (lines ++ [r.1]) r.2.1 r.2.2

/-- The "no data" sentinel (parser.py line 119). -/
def noDataMsg : String :=
  "No processable packets with IP layers were found in the PCAP file."

/-- Post-JSON processing of `parse_pcap_with_tshark` (parser.py lines
55-121): summarize packets, build the indicator list (addresses, then
domains that do not look like dotted quads), and return the sentinel when
the joined summary is empty. -/
def parse_pcap_process (packets : List Packet) : String × List Indicator :=
  let r := processPackets packets [] [] []
  let indicators :=
    r.2.1.map (fun ip => { type := "ip", value := ip })
    ++ (r.2.2.filter (fun d => !(dottedQuadPy d.data))).map
        (fun d => { type := "domain", value := d })
  let fullTextSummary := joinStr "\n" r.1
  if fullTextSummary = "" then (noDataMsg, []) else (fullTextSummary, indicators)

/-- The outcomes the code of `parse_pcap_with_tshark` distinguishes at the
subprocess/JSON boundary (parser.py lines 29-53): `check_tshark()` false,
`FileNotFoundError`, `subprocess.CalledProcessError` (with its stderr),
`json.JSONDecodeError`, any other exception (with its text), or a decoded
packet array.  The `ok` case fixes the decode result to a list of
well-shaped packet records, which is the tshark interface contract; the
behaviour of the code on a successful decode that does NOT have that
shape is modelled separately below (`PyJson`, `TsharkJsonOutcome`,
`parse_pcap_with_tshark_json`), because that path raises out of the
function instead of returning. -/
inductive TsharkOutcome where
  | toolMissing
  | fileNotFound
  | processError (stderr : String)
  | jsonDecodeError
  | unexpected (msg : String)
  | ok (packets : List Packet)

def toolMissingMsg : String :=
  "Error: tshark is not installed or not in the system's PATH. Please install it to analyze pcap files."

def fileNotFoundMsg : String :=
  "Error: tshark command not found. Please ensure it is installed and in your PATH."

def processErrPre : String :=
  "Error running tshark. The file might be corrupted or in an unsupported format.\nDetails: "

def jsonDecodeErrMsg : String :=
  "Error: tshark produced invalid JSON. The pcap file might be empty or corrupted."

def unexpectedPre : String :=
  "An unexpected error occurred during pcap parsing: "

/-- `parse_pcap_with_tshark` from `src/app/parser.py` (lines 16-121) as a
function of the boundary outcome. -/
def parse_pcap_with_tshark : TsharkOutcome → String × List Indicator
  | .toolMissing => (toolMissingMsg, [])
  | .fileNotFound => (fileNotFoundMsg, [])
  | .processError stderr => (processErrPre ++ stderr, [])
  | .jsonDecodeError => (jsonDecodeErrMsg, [])
  | .unexpected msg => (unexpectedPre ++ msg, [])
  | .ok packets => parse_pcap_process packets

/-! ## The dissection path at JSON level

`json.loads` can succeed with any JSON value, not only an array of
well-shaped packet objects.  The packet loop (parser.py lines 55-121)
and the indicator-building loop (lines 107-114) sit OUTSIDE the
`try` of lines 33-53, so Python exceptions raised there (`AttributeError`
from `.get` on a non-dict, `TypeError` from iterating a non-iterable,
from `set.add` of an unhashable value, or from `re.match` on a non-string)
propagate out of `parse_pcap_with_tshark`.  The model below embeds the
loop over arbitrary decoded JSON with those dynamic-semantics branch
points explicit; exception payload texts follow CPython's messages. -/

/-- A decoded JSON value (`json.loads` result).  Numbers are modelled as
integers; none of the fields consumed by the code are floats. -/
inductive PyJson where
  | null
  | bool (b : Bool)
  | num (n : Int)
  | str (s : String)
  | arr (elems : List PyJson)
  | obj (fields : List (String × PyJson))

def pyTypeName : PyJson → String
  | .null => "NoneType"
  | .bool _ => "bool"
  | .num _ => "int"
  | .str _ => "str"
  | .arr _ => "list"
  | .obj _ => "dict"

mutual
/-- Python `repr` of a JSON value (used by `str` for containers). -/
def pyRepr : PyJson → String
  | .null => "None"
  | .bool true => "True"
  | .bool false => "False"
  | .num n => toString n
  | .str s => "'" ++ s ++ "'"
  | .arr xs => "[" ++ pyReprSeq xs ++ "]"
  | .obj fs => "\x7b" ++ pyReprFields fs ++ "\x7d"

def pyReprSeq : List PyJson → String
  | [] => ""
  | [x] => pyRepr x
  | x :: y :: xs => pyRepr x ++ ", " ++ pyReprSeq (y :: xs)

def pyReprFields : List (String × PyJson) → String
  | [] => ""
  | [(k, v)] => "'" ++ k ++ "': " ++ pyRepr v
  | (k, v) :: f :: fs => "'" ++ k ++ "': " ++ pyRepr v ++ ", " ++ pyReprFields (f :: fs)
end

/-- Python `str()` of a JSON value, as used by f-string interpolation. -/
def pyStrOf (v : PyJson) : String :=
  match v with
  | .str s => s
  | _ => pyRepr v

/-- Python truthiness of a JSON value. -/
def pyTruthy : PyJson → Bool
  | .null => false
  | .bool b => b
  | .num n => n ≠ 0
  | .str s => s ≠ ""
  | .arr xs => !xs.isEmpty
  | .obj fs => !fs.isEmpty

mutual
/-- Python `==` on JSON values (structural; the cross-type numeric
equalities of Python, such as `True == 1`, do not arise for tshark
output and are not modelled). -/
def pyBeq : PyJson → PyJson → Bool
  | .null, .null => true
  | .bool a, .bool b => a = b
  | .num a, .num b => a = b
  | .str a, .str b => a = b
  | .arr a, .arr b => pyBeqSeq a b
  | .obj a, .obj b => pyBeqFields a b
  | _, _ => false

def pyBeqSeq : List PyJson → List PyJson → Bool
  | [], [] => true
  | a :: as, b :: bs => pyBeq a b && pyBeqSeq as bs
  | _, _ => false

def pyBeqFields : List (String × PyJson) → List (String × PyJson) → Bool
  | [], [] => true
  | (k1, v1) :: as, (k2, v2) :: bs => k1 = k2 && pyBeq v1 v2 && pyBeqFields as bs
  | _, _ => false
end

/-- `v.get(...)` demands a dict: on anything else Python raises
`AttributeError`. -/
def asObj (v : PyJson) : Except String (List (String × PyJson)) :=
  match v with
  | .obj fs => .ok fs
  | _ => .error ("AttributeError: '" ++ pyTypeName v ++ "' object has no attribute 'get'")

/-- Dict lookup with a default (`d.get(key, default)`). -/
def lookupD (fields : List (String × PyJson)) (key : String) (default : PyJson) : PyJson :=
  match fields.find? (fun kv => kv.1 = key) with
  | some kv => kv.2
  | none => default

/-- Dict key membership (`key in d`). -/
def containsKey (fields : List (String × PyJson)) (key : String) : Bool :=
  fields.any (fun kv => kv.1 = key)

/-- `set.add`: raises `TypeError` on unhashable values (lists, dicts). -/
def pySetAdd (s : List PyJson) (v : PyJson) : Except String (List PyJson) :=
  match v with
  | .arr _ => .error "TypeError: unhashable type: 'list'"
  | .obj _ => .error "TypeError: unhashable type: 'dict'"
  | _ => .ok (if s.any (pyBeq v) then s else s ++ [v])

/-- `for packet in packets_json`: lists iterate elements, dicts iterate
keys, strings iterate one-character strings, everything else raises
`TypeError`. -/
def pyIter (v : PyJson) : Except String (List PyJson) :=
  match v with
  | .arr xs => .ok xs
  | .obj fs => .ok (fs.map (fun kv => PyJson.str kv.1))
  | .str s => .ok (s.data.map (fun c => PyJson.str (String.mk [c])))
  | _ => .error ("TypeError: '" ++ pyTypeName v ++ "' object is not iterable")

/-- One iteration of the packet loop (parser.py lines 60-105) over a raw
JSON entry, with every `.get`, truthiness test and `set.add` explicit. -/
def processJsonPacket (ips doms : List PyJson) (packet : PyJson) :
    Except String (String × List PyJson × List PyJson) := do
  let packetFs ← asObj packet
  let src := lookupD packetFs "_source" (PyJson.obj [])
  let srcFs ← asObj src
  let layers := lookupD srcFs "layers" (PyJson.obj [])
  let layersFs ← asObj layers
  let frameInfo := lookupD layersFs "frame" (PyJson.obj [])
  let frameInfoFs ← asObj frameInfo
  let timestamp := lookupD frameInfoFs "frame.time" (PyJson.str "No Timestamp")
  let frameNum := lookupD frameInfoFs "frame.number" (PyJson.str "")
  let protocols := lookupD frameInfoFs "frame.protocols" (PyJson.str "")
  let part0 := "Frame " ++ pyStrOf frameNum ++ " (" ++ pyStrOf protocols
    ++ ") at " ++ pyStrOf timestamp
  let ipState ←
    if containsKey layersFs "ip" then do
      let ipLayer := lookupD layersFs "ip" PyJson.null
      let ipFs ← asObj ipLayer
      let srcIp := lookupD ipFs "ip.src" PyJson.null
      let dstIp := lookupD ipFs "ip.dst" PyJson.null
      if pyTruthy srcIp && pyTruthy dstIp then do
        let ips1 ← pySetAdd ips srcIp
        let ips2 ← pySetAdd ips1 dstIp
        pure (["IP: " ++ pyStrOf srcIp ++ " -> " ++ pyStrOf dstIp], ips2)
      else pure ([], ips)
    else pure ([], ips)
  let dnsState ←
    if containsKey layersFs "dns" then do
      let dnsLayer := lookupD layersFs "dns" PyJson.null
      let dnsFs ← asObj dnsLayer
      let queryName := lookupD dnsFs "dns.qry.name" PyJson.null
      let q ←
        if pyTruthy queryName then do
          let doms1 ← pySetAdd doms queryName
          pure (["DNS Query: " ++ pyStrOf queryName], doms1)
        else pure (([] : List String), doms)
      if containsKey dnsFs "dns.a" then
        pure (q.1 ++ ["DNS Answer: " ++ pyStrOf (lookupD dnsFs "dns.a" PyJson.null)], q.2)
      else pure q
    else pure ([], doms)
  let httpState ←
    if containsKey layersFs "http" then do
      let httpLayer := lookupD layersFs "http" PyJson.null
      let httpFs ← asObj httpLayer
      let host := lookupD httpFs "http.host" PyJson.null
      let requestUri := lookupD httpFs "http.request.uri" PyJson.null
      let h ←
        if pyTruthy host then do
          let doms1 ← pySetAdd dnsState.2 host
          pure (["HTTP Host: " ++ pyStrOf host], doms1)
        else pure (([] : List String), dnsState.2)
      if pyTruthy requestUri then
        pure (h.1 ++ ["HTTP URI: " ++ pyStrOf requestUri], h.2)
      else pure h
    else pure ([], dnsState.2)
  pure (joinStr " | " (part0 :: (ipState.1 ++ dnsState.1 ++ httpState.1)),
    ipState.2, httpState.2)

/-- The packet loop over raw JSON entries; the first exception aborts the
whole function. -/
def pcapJsonLoop : List PyJson → List String → List PyJson → List PyJson →
    Except String (List String × List PyJson × List PyJson)
  | [], lines, ips, doms => .ok (lines, ips, doms)
  | p :: rest, lines, ips, doms =>
    match processJsonPacket ips doms p with
    | .error e => .error e
    | .ok r => pcapJsonLoop rest (lines ++ [r.1]) r.2.1 r.2.2

/-- An indicator dictionary whose value kept its raw JSON type (the pcap
path never converts values to strings). -/
structure JsonIndicator where
  type : String
  value : PyJson

/-- The domain half of the indicator loop (parser.py lines 111-114):
`re.match` demands a string and raises `TypeError` otherwise. -/
def domainJsonIndicators : List PyJson → Except String (List JsonIndicator)
  | [] => .ok []
  | d :: rest =>
    match d with
    | .str s =>
      match domainJsonIndicators rest with
      | .error e => .error e
      | .ok tl =>
        if dottedQuadPy s.data then .ok tl
        else .ok ({ type := "domain", value := PyJson.str s } :: tl)
    | _ => .error "TypeError: expected string or bytes-like object"

/-- The indicator consolidation (parser.py lines 107-114). -/
def buildJsonIndicators (ips doms : List PyJson) :
    Except String (List JsonIndicator) :=
  match domainJsonIndicators doms with
  | .error e => .error e
  | .ok domInds => .ok (ips.map (fun ip => { type := "ip", value := ip }) ++ domInds)

/-- Result of the dissection adapter at the caller: either the returned
(summary, indicators) pair, or an exception that escaped the function. -/
inductive PcapOutcome where
  | ret (summary : String) (indicators : List JsonIndicator)
  | raised (exc : String)

/-- The post-decode part of `parse_pcap_with_tshark` over an arbitrary
decoded JSON value (parser.py lines 55-121), exceptions propagating. -/
def parse_pcap_json_process (j : PyJson) : PcapOutcome :=
  match pyIter j with
  | .error e => .raised e
  | .ok packets =>
    match pcapJsonLoop packets [] [] [] with
    | .error e => .raised e
    | .ok r =>
      match buildJsonIndicators r.2.1 r.2.2 with
      | .error e => .raised e
      | .ok indicators =>
        let fullTextSummary := joinStr "\n" r.1
        if fullTextSummary = "" then .ret noDataMsg [] else .ret fullTextSummary indicators

/-- The subprocess/JSON boundary without the well-shapedness assumption:
`decoded j` is a zero-exit tshark run whose stdout parsed as the JSON
value `j`. -/
inductive TsharkJsonOutcome where
  | toolMissing
  | fileNotFound
  | processError (stderr : String)
  | jsonDecodeError
  | unexpected (msg : String)
  | decoded (j : PyJson)

/-- `parse_pcap_with_tshark` (parser.py lines 16-121) over the JSON-level
boundary: the five caught failures return messages with empty indicator
lists; a successful decode runs the unprotected loop, whose exceptions
escape. -/
def parse_pcap_with_tshark_json : TsharkJsonOutcome → PcapOutcome
  | .toolMissing => .ret toolMissingMsg []
  | .fileNotFound => .ret fileNotFoundMsg []
  | .processError stderr => .ret (processErrPre ++ stderr) []
  | .jsonDecodeError => .ret jsonDecodeErrMsg []
  | .unexpected msg => .ret (unexpectedPre ++ msg) []
  | .decoded j => parse_pcap_json_process j

/-! ## The prompt built by `call_llm` in `src/app/llm.py` (lines 22-43) -/

/-- Python `str.upper()` for the ASCII indicator kinds. -/
def upperStr (s : String) : String := String.mk (s.data.map Char.toUpper)

/-- Python slicing `s[:n]` (by code point). -/
def pyTruncate (s : String) (n : Nat) : String := String.mk (s.data.take n)

/-- One bullet `- {i['type'].upper()}: {i['indicator']} (Threat Score: {i['score']})`. -/
def bulletLine (i : Enriched) : String :=
  "- " ++ upperStr i.type ++ ": " ++ i.indicator
    ++ " (Threat Score: " ++ toString i.score ++ ")"

/-- `indicator_summary` (llm.py line 22): joined bullets, or `"None found"`
when the indicator list is empty (Python list truthiness). -/
def indicatorSummary (indicators : List Enriched) : String :=
  match indicators with
  | [] => "None found"
  | _ => joinStr "\n" (indicators.map bulletLine)

def promptHead : String :=
  "\nAs a senior cybersecurity analyst AI, your task is to analyze the following network traffic data and security indicators. Provide a concise, expert-level threat analysis.\n\n**Input Data:**\nA summary of network packets or log entries is provided below.\n```\n"

def promptMid : String :=
  "\n```\n\n**Extracted Indicators of Compromise (IOCs):**\n"

def promptTail : String :=
  "\n\n**Your Analysis:**\nBased on all the provided information, please produce a brief but comprehensive report that includes:\n1.  **Executive Summary:** A short overview of the potential threat.\n2.  **Key Findings:** Bullet points highlighting the most suspicious activities (e.g., strange DNS queries, connections to high-risk IPs, unusual protocols).\n3.  **Recommendations:** Actionable steps for mitigation (e.g., \"Block IP address X,\" \"Investigate domain Y,\" \"Isolate host Z\").\n\nProvide a direct, professional response.\n"

/-- The prompt f-string of `call_llm` (llm.py lines 24-43): fixed
scaffolding around `log_text[:4000]` and the indicator bullet list. -/
def buildAnalysisPrompt (logText : String) (indicators : List Enriched) : String :=
  promptHead ++ pyTruncate logText 4000 ++ promptMid
    ++ indicatorSummary indicators ++ promptTail

/-! ## Basic string lemmas -/

theorem data_append (a b : String) : (a ++ b).data = a.data ++ b.data := rfl

theorem str_ext {a b : String} (h : a.data = b.data) : a = b := by
  cases a; cases b; exact congrArg String.mk h

theorem ne_of_take_six {a b : String} (h : a.data.take 6 ≠ b.data.take 6) :
    a ≠ b := fun e => h (by rw [e])

theorem head_data_append {a : String} (b : String) {c : Char} {t : List Char}
    (h : a.data = c :: t) : ∃ r, (a ++ b).data = c :: r :=
  ⟨t ++ b.data, by rw [data_append, h]; rfl⟩

/-- Joining with a separator only ever appends to the right of the first
element. -/
theorem foldl_join_data (sep : String) :
    ∀ (xs : List String) (a : String),
      ∃ t, (xs.foldl (fun acc s => acc ++ sep ++ s) a).data = a.data ++ t := by
  intro xs
  induction xs with
  | nil => intro a; exact ⟨[], (List.append_nil _).symm⟩
  | cons x rest ih =>
    intro a
    obtain ⟨t, h⟩ := ih (a ++ sep ++ x)
    refine ⟨sep.data ++ x.data ++ t, ?_⟩
    rw [List.foldl_cons, h, data_append, data_append]
    simp [List.append_assoc]

/-- Every frame context line starts with the letter F. -/
theorem frameLine_data (p : Packet) : ∃ t, (frameLine p).data = 'F' :: t := by
  have h0 : ("Frame " ++ p.frameNumber.getD "").data
      = 'F' :: ("rame ".data ++ (p.frameNumber.getD "").data) := by
    rw [data_append]; rfl
  obtain ⟨r1, h1⟩ := head_data_append " (" h0
  obtain ⟨r2, h2⟩ := head_data_append (p.frameProtocols.getD "") h1
  obtain ⟨r3, h3⟩ := head_data_append ") at " h2
  obtain ⟨r4, h4⟩ := head_data_append (p.frameTime.getD "No Timestamp") h3
  exact ⟨r4, h4⟩

/-- Every per-packet summary line starts with the letter F. -/
theorem processPacket_line_data (ips doms : List String) (p : Packet) :
    ∃ t, ((processPacket ips doms p).1).data = 'F' :: t := by
  obtain ⟨t0, h0⟩ := frameLine_data p
  obtain ⟨t, h⟩ := foldl_join_data " | "
    ((ipStep ips p).1 ++ (dnsStep doms p).1 ++ (httpStep (dnsStep doms p).2 p).1)
    (frameLine p)
  exact ⟨t0 ++ t, by rw [show ((processPacket ips doms p).1)
    = ((ipStep ips p).1 ++ (dnsStep doms p).1 ++ (httpStep (dnsStep doms p).2 p).1).foldl
        (fun acc s => acc ++ " | " ++ s) (frameLine p) from rfl, h, h0]; rfl⟩

/-- The packet loop only appends summary lines to the accumulator. -/
theorem processPackets_lines : ∀ (ps : List Packet) (lines ips doms : List String),
    ∃ tl, (processPackets ps lines ips doms).1 = lines ++ tl := by
  intro ps
  induction ps with
  | nil => intro lines ips doms; exact ⟨[], (List.append_nil _).symm⟩
  | cons p rest ih =>
    intro lines ips doms
    obtain ⟨tl, h⟩ := ih (lines ++ [(processPacket ips doms p).1])
      (processPacket ips doms p).2.1 (processPacket ips doms p).2.2
    refine ⟨(processPacket ips doms p).1 :: tl, ?_⟩
    rw [show processPackets (p :: rest) lines ips doms
      = processPackets rest (lines ++ [(processPacket ips doms p).1])
          (processPacket ips doms p).2.1 (processPacket ips doms p).2.2 from rfl, h]
    simp

/-- The packet with no layers at all. -/
def emptyPacket : Packet := ⟨none, none, none, none, none, none⟩

def frameLine0 : String := "Frame  () at No Timestamp"

theorem processPackets_replicate (n : Nat) :
    ∀ lines ips doms, processPackets (List.replicate n emptyPacket) lines ips doms
      = (lines ++ List.replicate n frameLine0, ips, doms) := by
  induction n with
  | zero => intro lines ips doms; simp [processPackets]
  | succ k ih =>
    intro lines ips doms
    rw [List.replicate_succ,
      show processPackets (emptyPacket :: List.replicate k emptyPacket) lines ips doms
        = processPackets (List.replicate k emptyPacket) (lines ++ [frameLine0]) ips doms from rfl,
      ih]
    rw [List.append_assoc]
    rfl

/-- Number of lines of a summary text, as one more than its newline count. -/
def lineCount (s : String) : Nat := s.data.count '\n' + 1

theorem foldl_join_count : ∀ (k : Nat) (a : String),
    ((List.replicate k frameLine0).foldl (fun acc s => acc ++ "\n" ++ s) a).data.count '\n'
      = a.data.count '\n' + k := by
  intro k
  induction k with
  | zero => intro a; rfl
  | succ m ih =>
    intro a
    rw [List.replicate_succ, List.foldl_cons, ih (a ++ "\n" ++ frameLine0),
      data_append, data_append, List.count_append, List.count_append]
    have h1 : ("\n" : String).data.count '\n' = 1 := rfl
    have h2 : frameLine0.data.count '\n' = 0 := rfl
    rw [h1, h2]
    omega

/-- Shared helper for C6: the summary for n+1 empty packets has exactly
n+1 lines. -/
theorem lineCount_replicate_succ (n : Nat) :
    lineCount (parse_pcap_process (List.replicate (n + 1) emptyPacket)).1 = n + 1 := by
  have hrep := processPackets_replicate (n + 1) [] [] []
  have hsum : (parse_pcap_process (List.replicate (n + 1) emptyPacket)).1
      = joinStr "\n" (List.replicate (n + 1) frameLine0) := by
    simp only [parse_pcap_process, hrep]
    rw [if_neg ?hne]
    · rfl
    case hne =>
      intro h
      have hd := congrArg String.data h
      rw [List.replicate_succ] at hd
      simp only [List.nil_append] at hd
      obtain ⟨t, ht⟩ := foldl_join_data "\n" (List.replicate n frameLine0) frameLine0
      rw [show joinStr "\n" (frameLine0 :: List.replicate n frameLine0)
        = (List.replicate n frameLine0).foldl (fun acc s => acc ++ "\n" ++ s) frameLine0 from rfl,
        ht] at hd
      simp [frameLine0] at hd
  rw [hsum, lineCount, List.replicate_succ,
    show joinStr "\n" (frameLine0 :: List.replicate n frameLine0)
      = (List.replicate n frameLine0).foldl (fun acc s => acc ++ "\n" ++ s) frameLine0 from rfl,
    foldl_join_count n frameLine0]
  have hc : List.count '\n' frameLine0.data = 0 := rfl
  omega

/-- Claim C2: the scoring classifier is a pure total function of
(kind, score) with inclusive thresholds 90/60/30 for ip, 85/55/25 for
domain, 80/50/20 for url, checked highest-first; any other kind (and any
score below the lowest threshold) yields "Unknown"; the quoted concrete
values hold. -/
theorem classify_score_spec :
    (∀ s : Int,
      (classify_score s "ip" = "High" ↔ 90 ≤ s) ∧
      (classify_score s "ip" = "Medium" ↔ 60 ≤ s ∧ s < 90) ∧
      (classify_score s "ip" = "Low" ↔ 30 ≤ s ∧ s < 60) ∧
      (classify_score s "ip" = "Unknown" ↔ s < 30)) ∧
    (∀ s : Int,
      (classify_score s "domain" = "High" ↔ 85 ≤ s) ∧
      (classify_score s "domain" = "Medium" ↔ 55 ≤ s ∧ s < 85) ∧
      (classify_score s "domain" = "Low" ↔ 25 ≤ s ∧ s < 55) ∧
      (classify_score s "domain" = "Unknown" ↔ s < 25)) ∧
    (∀ s : Int,
      (classify_score s "url" = "High" ↔ 80 ≤ s) ∧
      (classify_score s "url" = "Medium" ↔ 50 ≤ s ∧ s < 80) ∧
      (classify_score s "url" = "Low" ↔ 20 ≤ s ∧ s < 50) ∧
      (classify_score s "url" = "Unknown" ↔ s < 20)) ∧
    (∀ k : String, k ≠ "ip" → k ≠ "domain" → k ≠ "url" →
      ∀ s : Int, classify_score s k = "Unknown") ∧
    classify_score 90 "ip" = "High" ∧ classify_score 89 "ip" = "Medium" ∧
    classify_score 30 "ip" = "Low" ∧ classify_score 0 "ip" = "Unknown" := by
  have hip : ∀ s : Int, classify_score s "ip" =
      if 90 ≤ s then "High" else if 60 ≤ s then "Medium"
      else if 30 ≤ s then "Low" else "Unknown" := fun s => rfl
  have hdom : ∀ s : Int, classify_score s "domain" =
      if 85 ≤ s then "High" else if 55 ≤ s then "Medium"
      else if 25 ≤ s then "Low" else "Unknown" := fun s => rfl
  have hurl : ∀ s : Int, classify_score s "url" =
      if 80 ≤ s then "High" else if 50 ≤ s then "Medium"
      else if 20 ≤ s then "Low" else "Unknown" := fun s => rfl
  refine ⟨fun s => ?_, fun s => ?_, fun s => ?_,
    fun k h1 h2 h3 s => ?_, by decide, by decide, by decide, by decide⟩
  · refine ⟨?_, ?_, ?_, ?_⟩ <;> rw [hip] <;> split_ifs <;> simp_all <;> omega
  · refine ⟨?_, ?_, ?_, ?_⟩ <;> rw [hdom] <;> split_ifs <;> simp_all <;> omega
  · refine ⟨?_, ?_, ?_, ?_⟩ <;> rw [hurl] <;> split_ifs <;> simp_all <;> omega
  · simp [classify_score, THREAT_SCORES, h1, h2, h3, classifyGo]

/-- Witness for C2 at concrete inputs: the unrecognized-kind hypothesis is
discharged for kind "md5". -/
theorem classify_score_spec_witness :
    classify_score 77 "md5" = "Unknown" ∧ classify_score 90 "ip" = "High" :=
  ⟨classify_score_spec.2.2.2.1 "md5" (by decide) (by decide) (by decide) 77,
   classify_score_spec.2.2.2.2.1⟩

/-- Claim C1 is violated by the code: for the input text
`http://evil.example.com/path` the URL is extracted AND
`evil.example.com` is also returned as a standalone Domain indicator —
the cross-filter on parser.py line 146 tests `url_part in domain`
(URL as substring of the domain, never true since URLs contain `://`)
instead of the domain occurring inside the URL. -/
theorem parse_log_url_domain_double_count :
    (parse_log "http://evil.example.com/path".data).2 =
      [{ type := "url", value := "http://evil.example.com/path" },
       { type := "domain", value := "evil.example.com" }] := by decide

/-- Claim C3 is violated by the code: on the spec's end-to-end input the
address is deduplicated, but the extracted URL keeps the trailing comma
(`[^\s\"']+` does not stop at `,`) and `bad.example.com` IS additionally
returned as a Domain indicator (same root cause as C1). -/
theorem parse_log_end_to_end_eval :
    (parse_log "connect to 10.0.0.5 and http://bad.example.com/x, also seen 10.0.0.5 again".data).2 =
      [{ type := "ip", value := "10.0.0.5" },
       { type := "url", value := "http://bad.example.com/x," },
       { type := "domain", value := "bad.example.com" }] ∧
    ({ type := "url", value := "http://bad.example.com/x" } : Indicator) ∉
      (parse_log "connect to 10.0.0.5 and http://bad.example.com/x, also seen 10.0.0.5 again".data).2 := by
  constructor
  · decide
  · decide

/-! ### Lemmas about the scanner and set accumulation -/

/-- Every slice recorded by the findall scanner is nonempty. -/
theorem scanAux_mem_ne_nil (m : Option Char → List Char → Option Nat) :
    ∀ (fuel : Nat) (prev : Option Char) (s : List Char) (l : List Char),
      l ∈ scanAux m fuel prev s → l ≠ [] := by
  intro fuel
  induction fuel with
  | zero => intro prev s l h; simp [scanAux] at h
  | succ f ih =>
    intro prev s l h
    cases s with
    | nil => simp [scanAux] at h
    | cons c rest =>
      simp only [scanAux] at h
      cases hm : m prev (c :: rest) with
      | none => simp only [hm] at h; exact ih _ _ _ h
      | some n =>
        simp only [hm] at h
        by_cases hn : n = 0
        · rw [if_pos hn] at h; exact ih _ _ _ h
        · rw [if_neg hn] at h
          rcases List.mem_cons.1 h with h1 | h1
          · subst h1
            cases n with
            | zero => exact absurd rfl hn
            | succ k => simp
          · exact ih _ _ _ h1

theorem findall_mem_ne_nil (m : Option Char → List Char → Option Nat)
    (content : List Char) {l : List Char} (h : l ∈ findall m content) : l ≠ [] :=
  scanAux_mem_ne_nil m _ none content l h

theorem mem_addToSet {α : Type} [DecidableEq α] {s : List α} {x y : α}
    (h : y ∈ addToSet s x) : y ∈ s ∨ y = x := by
  by_cases hx : x ∈ s
  · rw [addToSet, if_pos hx] at h; exact Or.inl h
  · rw [addToSet, if_neg hx] at h
    rcases List.mem_append.1 h with h1 | h1
    · exact Or.inl h1
    · exact Or.inr (List.mem_singleton.1 h1)

theorem mem_foldl_addToSet {α : Type} [DecidableEq α] :
    ∀ (l acc : List α) (y : α), y ∈ l.foldl addToSet acc → y ∈ acc ∨ y ∈ l := by
  intro l
  induction l with
  | nil => intro acc y h; exact Or.inl h
  | cons x rest ih =>
    intro acc y h
    rcases ih (addToSet acc x) y h with h1 | h1
    · rcases mem_addToSet h1 with h2 | h2
      · exact Or.inl h2
      · exact Or.inr (h2 ▸ List.mem_cons_self x rest)
    · exact Or.inr (List.mem_cons_of_mem _ h1)

theorem mem_dedupKeepFirst {α : Type} [DecidableEq α] {l : List α} {y : α}
    (h : y ∈ dedupKeepFirst l) : y ∈ l := by
  rcases mem_foldl_addToSet l [] y h with h1 | h1
  · exact absurd h1 (List.not_mem_nil y)
  · exact h1

theorem nodup_addToSet {α : Type} [DecidableEq α] {s : List α} (x : α)
    (h : s.Nodup) : (addToSet s x).Nodup := by
  by_cases hx : x ∈ s
  · rw [addToSet, if_pos hx]; exact h
  · rw [addToSet, if_neg hx]
    refine List.Nodup.append h (List.nodup_singleton x) ?_
    intro a ha hb
    rw [List.mem_singleton] at hb
    exact hx (hb ▸ ha)

theorem nodup_foldl_addToSet {α : Type} [DecidableEq α] :
    ∀ (l acc : List α), acc.Nodup → (l.foldl addToSet acc).Nodup := by
  intro l
  induction l with
  | nil => intro acc h; exact h
  | cons x rest ih => intro acc h; exact ih (addToSet acc x) (nodup_addToSet x h)

theorem nodup_dedupKeepFirst {α : Type} [DecidableEq α] (l : List α) :
    (dedupKeepFirst l).Nodup :=
  nodup_foldl_addToSet l [] List.nodup_nil

/-! ### Nonemptiness invariants of the pcap accumulation sets -/

theorem ipStep_inv {ips : List String} {p : Packet} (h : ∀ x ∈ ips, x ≠ "") :
    ∀ x ∈ (ipStep ips p).2, x ≠ "" := by
  intro x hx
  rw [ipStep] at hx
  split at hx
  · exact h x hx
  · split at hx
    · split at hx
      · next s d hsd =>
        rcases mem_addToSet hx with h1 | h1
        · rcases mem_addToSet h1 with h2 | h2
          · exact h x h2
          · exact h2 ▸ hsd.1
        · exact h1 ▸ hsd.2
      · exact h x hx
    · exact h x hx

theorem dnsQueryStep_inv {doms : List String} {dl : DnsLayer}
    (h : ∀ x ∈ doms, x ≠ "") : ∀ x ∈ (dnsQueryStep doms dl).2, x ≠ "" := by
  intro x hx
  rw [dnsQueryStep] at hx
  split at hx
  · split at hx
    · next q hq =>
      rcases mem_addToSet hx with h1 | h1
      · exact h x h1
      · exact h1 ▸ hq
    · exact h x hx
  · exact h x hx

theorem dnsStep_inv {doms : List String} {p : Packet} (h : ∀ x ∈ doms, x ≠ "") :
    ∀ x ∈ (dnsStep doms p).2, x ≠ "" := by
  intro x hx
  rw [dnsStep] at hx
  split at hx
  · exact h x hx
  · split at hx
    · exact dnsQueryStep_inv h x hx
    · exact dnsQueryStep_inv h x hx

theorem httpHostStep_inv {doms : List String} {hl : HttpLayer}
    (h : ∀ x ∈ doms, x ≠ "") : ∀ x ∈ (httpHostStep doms hl).2, x ≠ "" := by
  intro x hx
  rw [httpHostStep] at hx
  split at hx
  · split at hx
    · next host hne =>
      rcases mem_addToSet hx with h1 | h1
      · exact h x h1
      · exact h1 ▸ hne
    · exact h x hx
  · exact h x hx

theorem httpStep_inv {doms : List String} {p : Packet} (h : ∀ x ∈ doms, x ≠ "") :
    ∀ x ∈ (httpStep doms p).2, x ≠ "" := by
  intro x hx
  rw [httpStep] at hx
  split at hx
  · exact h x hx
  · split at hx
    · split at hx
      · exact httpHostStep_inv h x hx
      · exact httpHostStep_inv h x hx
    · exact httpHostStep_inv h x hx

theorem processPackets_sets_inv :
    ∀ (ps : List Packet) (lines ips doms : List String),
      (∀ x ∈ ips, x ≠ "") → (∀ x ∈ doms, x ≠ "") →
      (∀ x ∈ (processPackets ps lines ips doms).2.1, x ≠ "") ∧
      (∀ x ∈ (processPackets ps lines ips doms).2.2, x ≠ "") := by
  intro ps
  induction ps with
  | nil => intro lines ips doms hi hd; exact ⟨hi, hd⟩
  | cons p rest ih =>
    intro lines ips doms hi hd
    exact ih _ _ _ (ipStep_inv hi) (httpStep_inv (dnsStep_inv hd))

/-- C7 invariant for the text path. -/
theorem parse_log_inv (content : List Char) (ind : Indicator)
    (h : ind ∈ (parse_log content).2) :
    ind.value ≠ "" ∧ (ind.type = "domain" → dottedQuadPy ind.value.data = false) := by
  have hmkne : ∀ {v : List Char}, v ≠ [] → String.mk v ≠ "" := by
    intro v hv he
    exact hv (congrArg String.data he)
  rcases List.mem_append.1 h with h12 | h3
  · rcases List.mem_append.1 h12 with h1 | h2
    · obtain ⟨v, hv, heq⟩ := List.mem_map.1 h1
      subst heq
      refine ⟨hmkne (findall_mem_ne_nil ipMatchAt content (mem_dedupKeepFirst hv)), ?_⟩
      intro hd
      exact absurd hd (by decide : ("ip" : String) ≠ "domain")
    · obtain ⟨v, hv, heq⟩ := List.mem_map.1 h2
      subst heq
      refine ⟨hmkne (findall_mem_ne_nil urlMatchAt content (mem_dedupKeepFirst hv)), ?_⟩
      intro hd
      exact absurd hd (by decide : ("url" : String) ≠ "domain")
  · obtain ⟨v, hv, heq⟩ := List.mem_map.1 h3
    subst heq
    have hf := List.mem_filter.1 hv
    have hpred := hf.2
    rw [Bool.and_eq_true, Bool.and_eq_true] at hpred
    have hq : dottedQuadPy v = false := by
      have := hpred.1.1
      rwa [Bool.not_eq_true'] at this
    exact ⟨hmkne (findall_mem_ne_nil domainMatchAt content (mem_dedupKeepFirst hf.1)),
      fun _ => hq⟩

/-- C7 invariant for the capture path. -/
theorem parse_pcap_inv (ps : List Packet) (ind : Indicator)
    (h : ind ∈ (parse_pcap_process ps).2) :
    ind.value ≠ "" ∧ (ind.type = "domain" → dottedQuadPy ind.value.data = false) := by
  have hinv := processPackets_sets_inv ps [] [] []
    (fun x hx => absurd hx (List.not_mem_nil x))
    (fun x hx => absurd hx (List.not_mem_nil x))
  simp only [parse_pcap_process] at h
  split at h
  · exact absurd h (List.not_mem_nil ind)
  · rcases List.mem_append.1 h with h1 | h2
    · obtain ⟨v, hv, heq⟩ := List.mem_map.1 h1
      subst heq
      refine ⟨hinv.1 v hv, ?_⟩
      intro hd
      exact absurd hd (by decide : ("ip" : String) ≠ "domain")
    · obtain ⟨v, hv, heq⟩ := List.mem_map.1 h2
      subst heq
      have hf := List.mem_filter.1 hv
      have hq : dottedQuadPy v.data = false := by
        have := hf.2
        rwa [Bool.not_eq_true'] at this
      exact ⟨hinv.2 v hf.1, fun _ => hq⟩

/-- Claim C7: for both extraction paths, no returned indicator has an
empty value, and no indicator of kind domain has a value matching the
dotted-quad address pattern `^\d{1,3}\.\d{1,3}\.\d{1,3}\.\d{1,3}$`. -/
theorem indicator_invariants :
    (∀ (content : List Char) (ind : Indicator), ind ∈ (parse_log content).2 →
      ind.value ≠ "" ∧ (ind.type = "domain" → dottedQuadPy ind.value.data = false)) ∧
    (∀ (ps : List Packet) (ind : Indicator), ind ∈ (parse_pcap_process ps).2 →
      ind.value ≠ "" ∧ (ind.type = "domain" → dottedQuadPy ind.value.data = false)) :=
  ⟨parse_log_inv, parse_pcap_inv⟩

/-- Witness for C7: applied to the concrete domain indicator extracted
from `http://evil.example.com/path`. -/
theorem indicator_invariants_witness :
    ({ type := "domain", value := "evil.example.com" } : Indicator).value ≠ "" ∧
    dottedQuadPy
      ({ type := "domain", value := "evil.example.com" } : Indicator).value.data = false :=
  ⟨(indicator_invariants.1 "http://evil.example.com/path".data
      { type := "domain", value := "evil.example.com" } (by decide)).1,
   (indicator_invariants.1 "http://evil.example.com/path".data
      { type := "domain", value := "evil.example.com" } (by decide)).2 rfl⟩

/-- Claim C4 is violated by the code: a successfully dissected capture
with one packet and no recognizable address layer does NOT get the "no
data" sentinel — every packet contributes a "Frame ..." summary line, so
the sentinel branch is unreachable unless the packet list is empty. -/
theorem pcap_zero_usable_not_sentinel :
    parse_pcap_with_tshark (.ok [emptyPacket]) = ("Frame  () at No Timestamp", []) ∧
    ("Frame  () at No Timestamp" : String) ≠ noDataMsg := by
  exact ⟨by decide, by decide⟩

/-- Claim C4 as amended: the dissector adapter returns the "no data"
sentinel result exactly when dissection succeeds with an EMPTY packet
list; any nonempty packet list (even with no address layer in any packet)
yields an ordinary summary result. -/
theorem pcap_no_data_sentinel_iff (ps : List Packet) :
    parse_pcap_with_tshark (.ok ps) = (noDataMsg, []) ↔ ps = [] := by
  constructor
  · intro h
    cases ps with
    | nil => rfl
    | cons p rest =>
      exfalso
      obtain ⟨tl, htl⟩ := processPackets_lines rest
        ([] ++ [(processPacket [] [] p).1]) (processPacket [] [] p).2.1
        (processPacket [] [] p).2.2
      have hlines : (processPackets (p :: rest) [] [] []).1
          = (processPacket [] [] p).1 :: tl := by
        rw [show processPackets (p :: rest) [] [] []
          = processPackets rest ([] ++ [(processPacket [] [] p).1])
              (processPacket [] [] p).2.1 (processPacket [] [] p).2.2 from rfl, htl]
        simp
      obtain ⟨t0, h0⟩ := processPacket_line_data [] [] p
      obtain ⟨t, ht⟩ := foldl_join_data "\n" tl ((processPacket [] [] p).1)
      have hsum : (joinStr "\n" ((processPackets (p :: rest) [] [] []).1)).data
          = 'F' :: (t0 ++ t) := by
        rw [hlines,
          show joinStr "\n" ((processPacket [] [] p).1 :: tl)
            = tl.foldl (fun acc s => acc ++ "\n" ++ s) ((processPacket [] [] p).1) from rfl,
          ht, h0]
        rfl
      have hne : joinStr "\n" ((processPackets (p :: rest) [] [] []).1) ≠ "" := by
        intro he
        rw [he] at hsum
        exact List.noConfusion hsum
      have h2 : (parse_pcap_with_tshark (.ok (p :: rest))).1
          = joinStr "\n" ((processPackets (p :: rest) [] [] []).1) := by
        simp only [parse_pcap_with_tshark, parse_pcap_process]
        rw [if_neg hne]
      rw [h] at h2
      have h3 := congrArg String.data h2
      rw [hsum] at h3
      have h4 : noDataMsg.data
          = 'N' :: "o processable packets with IP layers were found in the PCAP file.".data := rfl
      rw [h4] at h3
      exact absurd (List.head_eq_of_cons_eq h3) (by decide)
  · intro h
    subst h
    rfl

/-- Claim C6 is violated by the code: there is no cap and no trailer in
the packet summarizer — 150 packet records yield exactly 150 summary
lines, and no bound of the form "at most cap + 1 lines" holds for all
inputs. -/
theorem pcap_summary_cap_counterexample :
    lineCount (parse_pcap_with_tshark (.ok (List.replicate 150 emptyPacket))).1 = 150 ∧
    ¬ ∃ cap : Nat, ∀ ps : List Packet,
        lineCount (parse_pcap_with_tshark (.ok ps)).1 ≤ cap + 1 := by
  constructor
  · exact lineCount_replicate_succ 149
  · rintro ⟨cap, h⟩
    have h1 := h (List.replicate (cap + 2) emptyPacket)
    have h2 := lineCount_replicate_succ (cap + 1)
    rw [show parse_pcap_with_tshark (.ok (List.replicate (cap + 2) emptyPacket))
      = parse_pcap_process (List.replicate (cap + 2) emptyPacket) from rfl, h2] at h1
    omega

/-- Claim C6 as amended: the packet summarizer emits exactly one line per
packet record, with no cap and no omitted-packet trailer; in particular
n+1 packet records each yielding a summary line produce exactly n+1
lines. -/
theorem pcap_summary_one_line_per_packet (n : Nat) :
    lineCount (parse_pcap_with_tshark (.ok (List.replicate (n + 1) emptyPacket))).1 = n + 1 :=
  lineCount_replicate_succ n

theorem stringMk_injective : Function.Injective String.mk :=
  fun _ _ h => congrArg String.data h

/-- Filtering a constant-kind segment by kind keeps all values or none. -/
theorem kindValues_map_const (k t : String) (l : List (List Char)) :
    ((l.map (fun v => ({ type := t, value := String.mk v } : Indicator))).filter
        (fun i => i.type == k)).map (fun i => i.value)
      = if t == k then l.map String.mk else [] := by
  induction l with
  | nil => cases h : (t == k) <;> simp
  | cons x rest ih =>
    simp only [List.map_cons, List.filter_cons]
    rw [show (({ type := t, value := String.mk x } : Indicator).type == k)
      = (t == k) from rfl]
    cases h : (t == k) with
    | false => rw [if_neg (by simp)]; rw [h] at ih; simpa using ih
    | true =>
      rw [if_pos rfl]
      rw [h] at ih
      simp only [List.map_cons, ih]
      rfl

/-- Claim C8: text extraction is deterministic (running it twice on the
same content yields the same result), and within one pass the values are
deduplicated per kind: for every kind string k, the values of the
indicators of kind k are pairwise distinct. -/
theorem parse_log_idempotent_dedup (content : List Char) :
    parse_log content = parse_log content ∧
    ∀ k : String,
      (((parse_log content).2.filter (fun i => i.type == k)).map
        (fun i => i.value)).Nodup := by
  refine ⟨rfl, fun k => ?_⟩
  have hsplit : (parse_log content).2 =
      ((dedupKeepFirst (findall ipMatchAt content)).map
        (fun v => ({ type := "ip", value := String.mk v } : Indicator))
      ++ (dedupKeepFirst (findall urlMatchAt content)).map
        (fun v => ({ type := "url", value := String.mk v } : Indicator)))
      ++ ((dedupKeepFirst (findall domainMatchAt content)).filter (fun d =>
            !(dottedQuadPy d) && d.any (fun c => c = '.')
              && !((findall urlMatchAt content).any (fun u => isSubstringL u d)))).map
          (fun v => ({ type := "domain", value := String.mk v } : Indicator)) := rfl
  rw [hsplit, List.filter_append, List.filter_append, List.map_append, List.map_append,
    kindValues_map_const, kindValues_map_const, kindValues_map_const]
  have hip := nodup_dedupKeepFirst (findall ipMatchAt content) |>.map stringMk_injective
  have hurl := nodup_dedupKeepFirst (findall urlMatchAt content) |>.map stringMk_injective
  have hdom := (nodup_dedupKeepFirst (findall domainMatchAt content)).filter
    (fun d => !(dottedQuadPy d) && d.any (fun c => c = '.')
      && !((findall urlMatchAt content).any (fun u => isSubstringL u d)))
    |>.map stringMk_injective
  rcases eq_or_ne k "ip" with h1 | h1
  · subst h1
    rw [if_pos (by decide), if_neg (by decide), if_neg (by decide)]
    simpa using hip
  rcases eq_or_ne k "url" with h2 | h2
  · subst h2
    rw [if_neg (by decide), if_pos (by decide), if_neg (by decide)]
    simpa using hurl
  rcases eq_or_ne k "domain" with h3 | h3
  · subst h3
    rw [if_neg (by decide), if_neg (by decide), if_pos (by decide)]
    simpa using hdom
  · have hipk : ¬ ((("ip" : String) == k) = true) :=
      fun hb => h1 (eq_of_beq hb).symm
    have hurlk : ¬ ((("url" : String) == k) = true) :=
      fun hb => h2 (eq_of_beq hb).symm
    have hdomk : ¬ ((("domain" : String) == k) = true) :=
      fun hb => h3 (eq_of_beq hb).symm
    rw [if_neg hipk, if_neg hurlk, if_neg hdomk]
    simp

/-- The five CAUGHT failure branches of the dissector adapter yield an
empty indicator list, and their diagnostic messages (tool missing, tool
binary not found, tool non-zero exit, syntactically invalid JSON,
unexpected exception inside the try block) are pairwise distinct for all
attached diagnostic payloads.  This covers only the `try` of parser.py
lines 33-53; the uncaught path outside it is the subject of
`pcap_malformed_shape_raises`. -/
theorem pcap_error_paths (stderr msg : String) :
    (parse_pcap_with_tshark .toolMissing).2 = [] ∧
    (parse_pcap_with_tshark .fileNotFound).2 = [] ∧
    (parse_pcap_with_tshark (.processError stderr)).2 = [] ∧
    (parse_pcap_with_tshark .jsonDecodeError).2 = [] ∧
    (parse_pcap_with_tshark (.unexpected msg)).2 = [] ∧
    (parse_pcap_with_tshark .toolMissing).1 ≠ (parse_pcap_with_tshark .fileNotFound).1 ∧
    (parse_pcap_with_tshark .toolMissing).1 ≠ (parse_pcap_with_tshark (.processError stderr)).1 ∧
    (parse_pcap_with_tshark .toolMissing).1 ≠ (parse_pcap_with_tshark .jsonDecodeError).1 ∧
    (parse_pcap_with_tshark .toolMissing).1 ≠ (parse_pcap_with_tshark (.unexpected msg)).1 ∧
    (parse_pcap_with_tshark .fileNotFound).1 ≠ (parse_pcap_with_tshark (.processError stderr)).1 ∧
    (parse_pcap_with_tshark .fileNotFound).1 ≠ (parse_pcap_with_tshark .jsonDecodeError).1 ∧
    (parse_pcap_with_tshark .fileNotFound).1 ≠ (parse_pcap_with_tshark (.unexpected msg)).1 ∧
    (parse_pcap_with_tshark (.processError stderr)).1 ≠ (parse_pcap_with_tshark .jsonDecodeError).1 ∧
    (parse_pcap_with_tshark (.processError stderr)).1 ≠ (parse_pcap_with_tshark (.unexpected msg)).1 ∧
    (parse_pcap_with_tshark .jsonDecodeError).1 ≠ (parse_pcap_with_tshark (.unexpected msg)).1 := by
  have h3 : ∀ s : String, (processErrPre ++ s).data.take 6 = processErrPre.data.take 6 :=
    fun s => by rw [data_append, List.take_append_of_le_length (by decide)]
  have h5 : ∀ s : String, (unexpectedPre ++ s).data.take 6 = unexpectedPre.data.take 6 :=
    fun s => by rw [data_append, List.take_append_of_le_length (by decide)]
  refine ⟨rfl, rfl, rfl, rfl, rfl, by decide, ?_, by decide, ?_, ?_, by decide, ?_, ?_, ?_, ?_⟩
  · exact ne_of_take_six (by rw [show (parse_pcap_with_tshark (.processError stderr)).1 = processErrPre ++ stderr from rfl, h3]; decide)
  · exact ne_of_take_six (by rw [show (parse_pcap_with_tshark (.unexpected msg)).1 = unexpectedPre ++ msg from rfl, h5]; decide)
  · exact ne_of_take_six (by rw [show (parse_pcap_with_tshark (.processError stderr)).1 = processErrPre ++ stderr from rfl, h3]; decide)
  · exact ne_of_take_six (by rw [show (parse_pcap_with_tshark (.unexpected msg)).1 = unexpectedPre ++ msg from rfl, h5]; decide)
  · exact ne_of_take_six (by
      rw [show (parse_pcap_with_tshark (.processError stderr)).1 = processErrPre ++ stderr from rfl, h3]
      decide)
  · exact ne_of_take_six (by
      rw [show (parse_pcap_with_tshark (.processError stderr)).1 = processErrPre ++ stderr from rfl,
        show (parse_pcap_with_tshark (.unexpected msg)).1 = unexpectedPre ++ msg from rfl, h3, h5]
      decide)
  · exact ne_of_take_six (by rw [show (parse_pcap_with_tshark (.unexpected msg)).1 = unexpectedPre ++ msg from rfl, h5]; decide)

/-! ### Substring lemmas for the prompt structure -/

theorem isSubstringL_nil (n : List Char) : isSubstringL n [] = isPrefixL n [] := by
  cases n <;> rfl

theorem isSubstringL_cons (n : List Char) (c : Char) (t : List Char) :
    isSubstringL n (c :: t) = (isPrefixL n (c :: t) || isSubstringL n t) := rfl

theorem isPrefixL_append_self : ∀ (n t : List Char), isPrefixL n (n ++ t) = true := by
  intro n
  induction n with
  | nil => intro t; rfl
  | cons c rest ih => intro t; simp [isPrefixL, ih]

theorem isSubstringL_of_prefixL : ∀ (h n : List Char),
    isPrefixL n h = true → isSubstringL n h = true := by
  intro h n hp
  cases h with
  | nil => rw [isSubstringL_nil]; exact hp
  | cons c t => rw [isSubstringL_cons, hp]; rfl

theorem isPrefixL_mono : ∀ (n h y : List Char),
    isPrefixL n h = true → isPrefixL n (h ++ y) = true := by
  intro n
  induction n with
  | nil => intro h y hp; rfl
  | cons a as ih =>
    intro h y hp
    cases h with
    | nil => exact absurd hp (by simp [isPrefixL])
    | cons b bs =>
      rw [List.cons_append]
      simp only [isPrefixL, Bool.and_eq_true, decide_eq_true_eq] at hp ⊢
      exact ⟨hp.1, ih bs y hp.2⟩

theorem isSubstringL_mono_left : ∀ (pre n h : List Char),
    isSubstringL n h = true → isSubstringL n (pre ++ h) = true := by
  intro pre
  induction pre with
  | nil => intro n h hh; exact hh
  | cons c rest ih =>
    intro n h hh
    rw [List.cons_append, isSubstringL_cons, ih n h hh]
    simp

theorem isSubstringL_mono_right : ∀ (h n y : List Char),
    isSubstringL n h = true → isSubstringL n (h ++ y) = true := by
  intro h
  induction h with
  | nil =>
    intro n y hh
    rw [isSubstringL_nil] at hh
    cases n with
    | nil => exact isSubstringL_of_prefixL y [] rfl
    | cons a as => exact absurd hh (by simp [isPrefixL])
  | cons c t ih =>
    intro n y hh
    rw [isSubstringL_cons] at hh
    rw [List.cons_append, isSubstringL_cons]
    rw [Bool.or_eq_true] at hh
    rcases hh with h1 | h1
    · have h2 := isPrefixL_mono n (c :: t) y h1
      rw [List.cons_append] at h2
      rw [h2]
      rfl
    · rw [ih n y h1]; simp

theorem isSubstringL_append_mid (pre n suf : List Char) :
    isSubstringL n (pre ++ (n ++ suf)) = true :=
  isSubstringL_mono_left pre n (n ++ suf)
    (isSubstringL_of_prefixL (n ++ suf) n (isPrefixL_append_self n suf))

theorem isPrefixL_self (n : List Char) : isPrefixL n n = true := by
  induction n with
  | nil => rfl
  | cons c rest ih => simp [isPrefixL, ih]

/-- Every member of a separator-join occurs as a substring of the join. -/
theorem mem_foldl_join (sep : String) :
    ∀ (xs : List String) (a x : String), (x = a ∨ x ∈ xs) →
      isSubstringL x.data ((xs.foldl (fun acc s => acc ++ sep ++ s) a).data) = true := by
  intro xs
  induction xs with
  | nil =>
    intro a x hx
    rcases hx with h | h
    · subst h; exact isSubstringL_of_prefixL _ _ (isPrefixL_self _)
    · exact absurd h (List.not_mem_nil x)
  | cons b rest ih =>
    intro a x hx
    rw [List.foldl_cons]
    rcases hx with h | h
    · subst h
      obtain ⟨t, ht⟩ := foldl_join_data sep rest (x ++ sep ++ b)
      rw [ht, data_append, data_append, List.append_assoc, List.append_assoc]
      exact isSubstringL_of_prefixL _ _ (isPrefixL_append_self _ _)
    · rcases List.mem_cons.1 h with h1 | h1
      · subst h1
        obtain ⟨t, ht⟩ := foldl_join_data sep rest (a ++ sep ++ x)
        rw [ht, data_append, data_append, List.append_assoc]
        exact isSubstringL_append_mid (a.data ++ sep.data) x.data t
      · exact ih (a ++ sep ++ b) x (Or.inr h1)

theorem isSubstringL_joinStr (sep : String) (xs : List String) (x : String)
    (hx : x ∈ xs) : isSubstringL x.data ((joinStr sep xs).data) = true := by
  cases xs with
  | nil => exact absurd hx (List.not_mem_nil x)
  | cons a rest =>
    rcases List.mem_cons.1 hx with h | h
    · exact mem_foldl_join sep rest a x (Or.inl h)
    · exact mem_foldl_join sep rest a x (Or.inr h)

/-- Claim C9: the prompt built for the LLM collaborator contains the
summary text truncated to its first 4000 characters (and that truncation
is at most 4000 characters long), one bullet line per enriched indicator
(or "None found" when there are none), and the fixed scaffolding phrases
requesting an executive summary, key findings and recommendations. -/
theorem llm_prompt_structure (logText : String) (indicators : List Enriched) :
    isSubstringL (pyTruncate logText 4000).data
      (buildAnalysisPrompt logText indicators).data = true ∧
    (pyTruncate logText 4000).data.length ≤ 4000 ∧
    (∀ i ∈ indicators, isSubstringL (bulletLine i).data
      (buildAnalysisPrompt logText indicators).data = true) ∧
    (indicators = [] → isSubstringL "None found".data
      (buildAnalysisPrompt logText indicators).data = true) ∧
    isSubstringL "Executive Summary".data
      (buildAnalysisPrompt logText indicators).data = true ∧
    isSubstringL "Key Findings".data
      (buildAnalysisPrompt logText indicators).data = true ∧
    isSubstringL "Recommendations".data
      (buildAnalysisPrompt logText indicators).data = true := by
  have hdata : (buildAnalysisPrompt logText indicators).data
      = promptHead.data ++ ((pyTruncate logText 4000).data ++ (promptMid.data
        ++ ((indicatorSummary indicators).data ++ promptTail.data))) := by
    simp [buildAnalysisPrompt, data_append, List.append_assoc]
  have hsumm : ∀ n : List Char,
      isSubstringL n (indicatorSummary indicators).data = true →
      isSubstringL n (buildAnalysisPrompt logText indicators).data = true := by
    intro n hn
    rw [hdata]
    exact isSubstringL_mono_left _ _ _ (isSubstringL_mono_left _ _ _
      (isSubstringL_mono_left _ _ _ (isSubstringL_mono_right _ _ _ hn)))
  have htail : ∀ n : List Char,
      isSubstringL n promptTail.data = true →
      isSubstringL n (buildAnalysisPrompt logText indicators).data = true := by
    intro n hn
    have : (buildAnalysisPrompt logText indicators).data
        = (promptHead ++ pyTruncate logText 4000 ++ promptMid
            ++ indicatorSummary indicators).data ++ promptTail.data := rfl
    rw [this]
    exact isSubstringL_mono_left _ _ _ hn
  refine ⟨?_, ?_, ?_, ?_, ?_, ?_, ?_⟩
  · rw [hdata]
    exact isSubstringL_append_mid promptHead.data (pyTruncate logText 4000).data _
  · rw [show (pyTruncate logText 4000).data = logText.data.take 4000 from rfl,
      List.length_take]
    exact min_le_left _ _
  · intro i hi
    apply hsumm
    cases indicators with
    | nil => exact absurd hi (List.not_mem_nil i)
    | cons a rest =>
      exact isSubstringL_joinStr "\n" ((a :: rest).map bulletLine) (bulletLine i)
        (List.mem_map_of_mem bulletLine hi)
  · intro hnil
    subst hnil
    apply hsumm
    exact isSubstringL_of_prefixL _ _ (isPrefixL_self _)
  · exact htail _ (by set_option maxRecDepth 20000 in decide)
  · exact htail _ (by set_option maxRecDepth 20000 in decide)
  · exact htail _ (by set_option maxRecDepth 20000 in decide)

/-- A concrete enriched indicator used by the C9 witness. -/
def egEnriched : Enriched :=
  { type := "ip", indicator := "10.0.0.5", details := "d", score := 95, level := "High" }

/-- Witness for C9 at a concrete summary and a single enriched
indicator. -/
theorem llm_prompt_structure_witness :
    isSubstringL (bulletLine egEnriched).data
      (buildAnalysisPrompt "three packets" [egEnriched]).data = true :=
  (llm_prompt_structure "three packets" [egEnriched]).2.2.1 egEnriched
    (List.mem_singleton.2 rfl)

/-! ### Enrichment (C10) -/

theorem enrichGo_length (rand : Nat → Int) :
    ∀ (inds : List Indicator) (i0 : Nat),
      (enrichGo rand i0 inds).length = inds.length := by
  intro inds
  induction inds with
  | nil => intro i0; rfl
  | cons x rest ih => intro i0; simp [enrichGo, ih (i0 + 1)]

theorem enrichGo_get (rand : Nat → Int) :
    ∀ (inds : List Indicator) (i0 i : Nat) (item : Indicator),
      inds.get? i = some item →
      (enrichGo rand i0 inds).get? i = some
        { type := item.type, indicator := item.value,
          details := "Simulated enrichment details for " ++ item.value,
          score := rand (i0 + i),
          level := classify_score (rand (i0 + i)) item.type } := by
  intro inds
  induction inds with
  | nil => intro i0 i item h; simp at h
  | cons x rest ih =>
    intro i0 i item h
    cases i with
    | zero =>
      rw [List.get?_cons_zero] at h
      cases h
      rfl
    | succ j =>
      rw [List.get?_cons_succ] at h
      have h2 := ih (i0 + 1) j item h
      rw [show enrichGo rand i0 (x :: rest)
        = ({ type := x.type, indicator := x.value,
             details := "Simulated enrichment details for " ++ x.value,
             score := rand i0,
             level := classify_score (rand i0) x.type } : Enriched)
          :: enrichGo rand (i0 + 1) rest from rfl,
        List.get?_cons_succ, h2, show i0 + 1 + j = i0 + (j + 1) by omega]

/-- Claim C10: enrichment is a one-to-one, order-preserving map — same
length, and the i-th output record keeps the i-th input's type, carries
its value as the indicator field, has a score in [10, 100] (the randint
contract of the injected score stream), and a level equal to the
classifier applied to that score and type. -/
theorem enrich_indicators_spec (rand : Nat → Int) (inds : List Indicator)
    (hr : ∀ n, 10 ≤ rand n ∧ rand n ≤ 100) :
    (enrich_indicators rand inds).length = inds.length ∧
    ∀ i e item, (enrich_indicators rand inds).get? i = some e →
      inds.get? i = some item →
      e.type = item.type ∧ e.indicator = item.value ∧
      10 ≤ e.score ∧ e.score ≤ 100 ∧
      e.level = classify_score e.score e.type := by
  refine ⟨enrichGo_length rand inds 0, fun i e item he hi => ?_⟩
  have h := enrichGo_get rand inds 0 i item hi
  rw [show enrich_indicators rand inds = enrichGo rand 0 inds from rfl, h] at he
  cases he
  exact ⟨rfl, rfl, (hr (0 + i)).1, (hr (0 + i)).2, rfl⟩

/-- Witness for C10 with the constant score stream 10 and one indicator. -/
theorem enrich_indicators_spec_witness :
    (enrich_indicators (fun _ => 10) [({ type := "ip", value := "10.0.0.5" } : Indicator)]).length = 1 :=
  (enrich_indicators_spec (fun _ => 10) [({ type := "ip", value := "10.0.0.5" } : Indicator)]
    (fun _ => ⟨le_refl 10, (by norm_num : (10 : Int) ≤ 100)⟩)).1

/-- Witness for C4 at the empty packet list. -/
theorem pcap_no_data_sentinel_iff_witness :
    parse_pcap_with_tshark (.ok []) = (noDataMsg, []) :=
  (pcap_no_data_sentinel_iff []).mpr rfl

/-- `pcap_error_paths` at concrete diagnostic payloads. -/
theorem pcap_error_paths_witness :
    (parse_pcap_with_tshark (.processError "bad magic")).2 = [] ∧
    (parse_pcap_with_tshark .toolMissing).1
      ≠ (parse_pcap_with_tshark (.processError "bad magic")).1 :=
  ⟨(pcap_error_paths "bad magic" "oops").2.2.1,
   (pcap_error_paths "bad magic" "oops").2.2.2.2.2.2.1⟩

/-- Witness for the amended C6 at one packet. -/
theorem pcap_summary_one_line_per_packet_witness :
    lineCount (parse_pcap_with_tshark (.ok (List.replicate 1 emptyPacket))).1 = 1 :=
  pcap_summary_one_line_per_packet 0

/-- Witness for C8 at the concrete C1 input and kind "domain". -/
theorem parse_log_idempotent_dedup_witness :
    (((parse_log "http://evil.example.com/path".data).2.filter
      (fun i => i.type == "domain")).map (fun i => i.value)).Nodup :=
  (parse_log_idempotent_dedup "http://evil.example.com/path".data).2 "domain"

/-- Claim C5 is violated by the code: the `try` of parser.py lines 33-53
covers only the subprocess call and `json.loads`, while the packet loop
(lines 55-121) and the indicator loop (lines 107-114) sit outside every
exception handler.  When tshark exits 0 and prints valid JSON that is not
an array of packet dicts — malformed structured output in the claim's
sense — the loop raises an uncaught `AttributeError`/`TypeError` past the
adapter boundary instead of returning a typed error result.  The first
two conjuncts evaluate the code at such inputs ([5] and 5); the remaining
conjuncts record that the caught branches do behave as the claim says. -/
theorem pcap_malformed_shape_raises :
    parse_pcap_with_tshark_json (.decoded (PyJson.arr [PyJson.num 5]))
      = .raised "AttributeError: 'int' object has no attribute 'get'" ∧
    parse_pcap_with_tshark_json (.decoded (PyJson.num 5))
      = .raised "TypeError: 'int' object is not iterable" ∧
    (∀ (summary : String) (indicators : List JsonIndicator),
      parse_pcap_with_tshark_json (.decoded (PyJson.arr [PyJson.num 5]))
        ≠ .ret summary indicators) ∧
    (∀ stderr : String, parse_pcap_with_tshark_json (.processError stderr)
      = .ret (processErrPre ++ stderr) []) ∧
    parse_pcap_with_tshark_json .toolMissing = .ret toolMissingMsg [] ∧
    parse_pcap_with_tshark_json .fileNotFound = .ret fileNotFoundMsg [] ∧
    parse_pcap_with_tshark_json .jsonDecodeError = .ret jsonDecodeErrMsg [] ∧
    (∀ msg : String, parse_pcap_with_tshark_json (.unexpected msg)
      = .ret (unexpectedPre ++ msg) []) := by
  have h1 : parse_pcap_with_tshark_json (.decoded (PyJson.arr [PyJson.num 5]))
      = .raised "AttributeError: 'int' object has no attribute 'get'" := rfl
  refine ⟨h1, rfl, ?_, fun _ => rfl, rfl, rfl, rfl, fun _ => rfl⟩
  intro summary indicators hcontra
  rw [h1] at hcontra
  exact PcapOutcome.noConfusion hcontra

end CTA
